import Mathlib

/-!
Verification of the `Camera` controller of `src/sdl_viewer/src/camera.rs`.

The Rust code works on `f32`; the embedding models every scalar as a real
number (exact arithmetic).  The `cgmath` operations the camera relies on
(quaternion product, `Rotation3::from_angle_z/x`, `Quaternion::rotate_vector`,
`Quaternion::invert`, `Decomposed::inverse_transform`, the
`Matrix4` conversions of `Decomposed` and `PerspectiveFov`) are embedded by
their well known formulas, and `time::Duration` is modelled by its total
number of nanoseconds, `num_milliseconds` being truncating division by 10^6.
`ulps_eq!(x, 0)` (approximate float equality) is modelled as exact `x = 0`.
The GL side effects (`gl.Viewport`) are dropped; everything else follows the
source line by line.
-/

/-- A 3-vector of reals, modelling `cgmath::Vector3<f32>`. -/
@[ext]
structure Vec3 where
  x : ℝ
  y : ℝ
  z : ℝ

namespace Vec3

def zero : Vec3 := ⟨0, 0, 0⟩

/-- Componentwise sum, `Vector3::add`. -/
def add (a b : Vec3) : Vec3 := ⟨a.x + b.x, a.y + b.y, a.z + b.z⟩

instance : Add Vec3 := ⟨Vec3.add⟩

theorem add_def (a b : Vec3) : a + b = ⟨a.x + b.x, a.y + b.y, a.z + b.z⟩ := rfl

/-- Scalar multiple `v * k`, `Vector3::mul`. -/
def smul (v : Vec3) (k : ℝ) : Vec3 := ⟨v.x * k, v.y * k, v.z * k⟩

/-- Embeds `InnerSpace::magnitude2`, the dot product of the vector with itself. -/
def magnitude2 (v : Vec3) : ℝ := v.x * v.x + v.y * v.y + v.z * v.z

/-- Embeds `Vector3::cross`. -/
def cross (a b : Vec3) : Vec3 :=
  ⟨a.y * b.z - a.z * b.y, a.z * b.x - a.x * b.z, a.x * b.y - a.y * b.x⟩

/-- Embeds `InnerSpace::normalize`: `self * (1 / magnitude)`. -/
noncomputable def normalize (v : Vec3) : Vec3 :=
  v.smul (1 / Real.sqrt v.magnitude2)

end Vec3

/-- Quaternion with scalar part `s` and vector part `(x, y, z)`,
modelling `cgmath::Quaternion<f32>`. -/
@[ext]
structure Quat where
  s : ℝ
  x : ℝ
  y : ℝ
  z : ℝ

namespace Quat

def one : Quat := ⟨1, 0, 0, 0⟩

/-- Hamilton product, `cgmath`'s `Mul` for `Quaternion`. -/
def mul (p q : Quat) : Quat :=
  ⟨p.s * q.s - p.x * q.x - p.y * q.y - p.z * q.z,
   p.s * q.x + p.x * q.s + p.y * q.z - p.z * q.y,
   p.s * q.y + p.y * q.s + p.z * q.x - p.x * q.z,
   p.s * q.z + p.z * q.s + p.x * q.y - p.y * q.x⟩

instance : Mul Quat := ⟨Quat.mul⟩

theorem mul_def (p q : Quat) : p * q = Quat.mul p q := rfl

/-- Embeds `Quaternion::conjugate`. -/
def conjugate (q : Quat) : Quat := ⟨q.s, -q.x, -q.y, -q.z⟩

/-- Embeds `Quaternion::magnitude2 = dot(self, self)`. -/
def magnitude2 (q : Quat) : ℝ := q.s * q.s + q.x * q.x + q.y * q.y + q.z * q.z

/-- Embeds `Quaternion::invert`: `self.conjugate() / self.magnitude2()`. -/
noncomputable def invert (q : Quat) : Quat :=
  ⟨q.s / q.magnitude2, -q.x / q.magnitude2, -q.y / q.magnitude2, -q.z / q.magnitude2⟩

/-- Embeds `Rotation3::from_angle_z(theta)`: axis-angle quaternion around `unit_z`. -/
noncomputable def from_angle_z (theta : ℝ) : Quat :=
  ⟨Real.cos (theta / 2), 0, 0, Real.sin (theta / 2)⟩

/-- Embeds `Rotation3::from_angle_x(phi)`: axis-angle quaternion around `unit_x`. -/
noncomputable def from_angle_x (phi : ℝ) : Quat :=
  ⟨Real.cos (phi / 2), Real.sin (phi / 2), 0, 0⟩

/-- Embeds `Rotation::rotate_vector`:
`let tmp = self.v.cross(vec) + (vec * self.s); vec + (self.v.cross(tmp)) * 2`. -/
def rotate_vector (q : Quat) (v : Vec3) : Vec3 :=
  let qv : Vec3 := ⟨q.x, q.y, q.z⟩
  let tmp : Vec3 := qv.cross v + v.smul q.s
  v + (qv.cross tmp).smul 2

end Quat

/-- Embeds `cgmath::Decomposed<Vector3<f32>, Quaternion<f32>>`: scale, rotation,
displacement. -/
structure Decomposed where
  scale : ℝ
  rot : Quat
  disp : Vec3

/-- A 4x4 real matrix, modelling `cgmath::Matrix4<f32>`. -/
abbrev Matrix4 := Matrix (Fin 4) (Fin 4) ℝ

namespace Decomposed

/-- Embeds `Matrix4::from(Decomposed)`: the 3x3 block is
`Matrix3::from(rot) * Matrix3::from_value(scale)`, the last column is the
displacement, the last row `(0,0,0,1)`.  The 3x3 entries are cgmath's
`From<Quaternion> for Matrix3` formula. -/
def toMatrix4 (t : Decomposed) : Matrix4 :=
  Matrix.of
    ![![t.scale * (1 - 2 * t.rot.y * t.rot.y - 2 * t.rot.z * t.rot.z),
        t.scale * (2 * t.rot.x * t.rot.y - 2 * t.rot.s * t.rot.z),
        t.scale * (2 * t.rot.x * t.rot.z + 2 * t.rot.s * t.rot.y), t.disp.x],
      ![t.scale * (2 * t.rot.x * t.rot.y + 2 * t.rot.s * t.rot.z),
        t.scale * (1 - 2 * t.rot.x * t.rot.x - 2 * t.rot.z * t.rot.z),
        t.scale * (2 * t.rot.y * t.rot.z - 2 * t.rot.s * t.rot.x), t.disp.y],
      ![t.scale * (2 * t.rot.x * t.rot.z - 2 * t.rot.s * t.rot.y),
        t.scale * (2 * t.rot.y * t.rot.z + 2 * t.rot.s * t.rot.x),
        t.scale * (1 - 2 * t.rot.x * t.rot.x - 2 * t.rot.y * t.rot.y), t.disp.z],
      ![0, 0, 0, 1]]

/-- Embeds `Transform::inverse_transform` for `Decomposed` (cgmath):
`None` when the scale is (approximately) zero, otherwise inverts scale,
rotation and displacement. -/
noncomputable def inverse_transform (t : Decomposed) : Option Decomposed :=
  if t.scale = 0 then none
  else
    some { scale := 1 / t.scale,
           rot := t.rot.invert,
           disp := t.rot.invert.rotate_vector (t.disp.smul (-(1 / t.scale))) }

end Decomposed

/-- Embeds `Matrix4::from(PerspectiveFov { fovy, aspect, near, far })` (cgmath):
`f = cot(fovy / 2)`; only the entries written below are nonzero. -/
noncomputable def perspectiveFovMatrix (fovy aspect near far : ℝ) : Matrix4 :=
  Matrix.of
    ![![Real.cos (fovy / 2) / Real.sin (fovy / 2) / aspect, 0, 0, 0],
      ![0, Real.cos (fovy / 2) / Real.sin (fovy / 2), 0, 0],
      ![0, 0, (far + near) / (near - far), 2 * far * near / (near - far)],
      ![0, 0, -1, 0]]

/-- The private `RotationAngle` pair of the camera module. -/
structure RotationAngle where
  theta : ℝ
  phi : ℝ

/-- Embeds `RotationAngle::zero()`. -/
def RotationAngle.zero : RotationAngle := ⟨0, 0⟩

/-- The `Camera` struct, field for field.  `width`/`height` are `i32`,
modelled as `ℤ`. -/
structure Camera where
  moving_backward : Bool
  moving_forward : Bool
  moving_left : Bool
  moving_right : Bool
  moving_down : Bool
  moving_up : Bool
  turning_left : Bool
  turning_right : Bool
  turning_down : Bool
  turning_up : Bool
  width : ℤ
  height : ℤ
  movement_speed : ℝ
  theta : ℝ
  phi : ℝ
  pan : Vec3
  rotation_speed : RotationAngle
  delta_rotation : RotationAngle
  moved : Bool
  transform : Decomposed
  projection_matrix : Matrix4

/-- The serializable `State` snapshot: `{transform, phi, theta}`. -/
structure State where
  transform : Decomposed
  phi : ℝ
  theta : ℝ

/-- Embeds `time::Duration::num_milliseconds`, on a duration given as a total
number of nanoseconds: truncating (toward zero) division by 10^6. -/
def Duration.num_milliseconds (nanos : ℤ) : ℤ := nanos.tdiv 1000000

namespace Camera

/-- Embeds `Camera::set_size` (the `gl.Viewport` side effect is dropped):
stores the dimensions, recomputes the 45deg perspective projection with
`aspect = width / height`, `near = 0.1`, `far = 10000`, and marks `moved`. -/
noncomputable def set_size (c : Camera) (width height : ℤ) : Camera :=
  { c with
      width := width,
      height := height,
      projection_matrix :=
        perspectiveFovMatrix (Real.pi / 4) ((width : ℝ) / (height : ℝ)) 0.1 10000,
      moved := true }

/-- Embeds `Camera::new` (minus the GL handle): the struct literal of the source,
then `set_size`. -/
noncomputable def new (width height : ℤ) : Camera :=
  Camera.set_size
    { movement_speed := 10,
      moving_backward := false, moving_forward := false,
      moving_left := false, moving_right := false,
      moving_down := false, moving_up := false,
      turning_left := false, turning_right := false,
      turning_down := false, turning_up := false,
      moved := true,
      theta := 0, phi := 0,
      pan := Vec3.zero,
      rotation_speed := RotationAngle.zero,
      delta_rotation := RotationAngle.zero,
      transform := { scale := 1, rot := Quat.one, disp := ⟨0, 0, 150⟩ },
      projection_matrix := 1, width := 0, height := 0 }
    width height

/-- Embeds `Camera::state`. -/
def state (c : Camera) : State :=
  { transform := c.transform, phi := c.phi, theta := c.theta }

/-- Embeds `Camera::set_state`. -/
def set_state (c : Camera) (s : State) : Camera :=
  { c with transform := s.transform, phi := s.phi, theta := s.theta, moved := true }

/-- Embeds `Camera::get_world_to_gl`: `projection_matrix * Matrix4::from(transform.inverse_transform())`;
the `unwrap` of the source is modelled by the `Option`. -/
noncomputable def get_world_to_gl (c : Camera) : Option Matrix4 :=
  (c.transform.inverse_transform).map
    (fun t => c.projection_matrix * t.toMatrix4)

/-- The value `rotation_speed.theta` holds after the turning-key increments
of `update` (lines 183-189): `+0.15` for `turning_left`, `-0.15` for
`turning_right`. -/
def keyed_rotation_speed_theta (c : Camera) : ℝ :=
  c.rotation_speed.theta + (if c.turning_left then (0.15 : ℝ) else 0)
    - (if c.turning_right then (0.15 : ℝ) else 0)

/-- The value `rotation_speed.phi` holds after the turning-key increments of
`update` (lines 190-195): `+0.15` for `turning_up`, `-0.15` for
`turning_down`. -/
def keyed_rotation_speed_phi (c : Camera) : ℝ :=
  c.rotation_speed.phi + (if c.turning_up then (0.15 : ℝ) else 0)
    - (if c.turning_down then (0.15 : ℝ) else 0)

/-- Embeds `elapsed.num_milliseconds() as f32 / 1000.` -/
noncomputable def elapsed_seconds (elapsedNanos : ℤ) : ℝ :=
  (Duration.num_milliseconds elapsedNanos : ℝ) / 1000

/-- Embeds `Camera::update`, line by line.  The elapsed `time::Duration` is the
total nanosecond count `elapsedNanos`.  Returns the new camera state and
the `moved` result. -/
noncomputable def update (c : Camera) (elapsedNanos : ℤ) : Camera × Bool :=
  -- keyboard pan direction (lines 158-176)
  let keyPan : Vec3 :=
    ⟨(if c.moving_right then (1 : ℝ) else 0) + (if c.moving_left then (-1 : ℝ) else 0),
     (if c.moving_up then (1 : ℝ) else 0) + (if c.moving_down then (-1 : ℝ) else 0),
     (if c.moving_backward then (1 : ℝ) else 0) + (if c.moving_forward then (-1 : ℝ) else 0)⟩
  -- `if pan.magnitude2() > 0. { self.pan += pan.normalize(); }`
  let pan1 : Vec3 := if 0 < keyPan.magnitude2 then c.pan + keyPan.normalize else c.pan
  let es : ℝ := elapsed_seconds elapsedNanos
  let rsTheta : ℝ := keyed_rotation_speed_theta c
  let rsPhi : ℝ := keyed_rotation_speed_phi c
  -- `if self.pan.magnitude2() > 0.` (lines 198-205)
  let theta1 : ℝ :=
    if rsTheta ≠ 0 ∨ rsPhi ≠ 0 ∨ c.delta_rotation.theta ≠ 0 ∨ c.delta_rotation.phi ≠ 0 then
      if c.delta_rotation.theta ≠ 0 ∨ c.delta_rotation.phi ≠ 0 then
        c.theta + c.delta_rotation.theta
      else c.theta + rsTheta * es
    else c.theta
  let phi1 : ℝ :=
    if rsTheta ≠ 0 ∨ rsPhi ≠ 0 ∨ c.delta_rotation.theta ≠ 0 ∨ c.delta_rotation.phi ≠ 0 then
      if c.delta_rotation.theta ≠ 0 ∨ c.delta_rotation.phi ≠ 0 then
        c.phi + c.delta_rotation.phi
      else c.phi + rsPhi * es
    else c.phi
  -- `self.transform.rot = rotation_z * rotation_x` (lines 220-222)
  let rot1 : Quat :=
    if rsTheta ≠ 0 ∨ rsPhi ≠ 0 ∨ c.delta_rotation.theta ≠ 0 ∨ c.delta_rotation.phi ≠ 0 then
      Quat.from_angle_z theta1 * Quat.from_angle_x phi1
    else c.transform.rot
  -- pan applied with the rotation current at lines 198-205, i.e. the old one
  let disp1 : Vec3 :=
    if 0 < pan1.magnitude2 then
      c.transform.disp +
        c.transform.rot.rotate_vector (pan1.smul (c.movement_speed * es))
    else c.transform.disp
  let moved1 : Bool :=
    if 0 < pan1.magnitude2 ∨ rsTheta ≠ 0 ∨ rsPhi ≠ 0 ∨
        c.delta_rotation.theta ≠ 0 ∨ c.delta_rotation.phi ≠ 0 then
      true
    else c.moved
  ({ c with
      theta := theta1,
      phi := phi1,
      pan := Vec3.zero,
      rotation_speed := RotationAngle.zero,
      delta_rotation := RotationAngle.zero,
      moved := false,
      transform := { c.transform with rot := rot1, disp := disp1 } },
   moved1)

/-- Embeds `Camera::mouse_drag_pan`. -/
noncomputable def mouse_drag_pan (c : Camera) (delta_x delta_y : ℤ) : Camera :=
  { c with
      pan := ⟨c.pan.x - 100 * (delta_x : ℝ) / (c.width : ℝ),
              c.pan.y + 100 * (delta_y : ℝ) / (c.height : ℝ),
              c.pan.z⟩ }

/-- Embeds `Camera::mouse_drag_rotate`. -/
noncomputable def mouse_drag_rotate (c : Camera) (delta_x delta_y : ℤ) : Camera :=
  { c with
      delta_rotation :=
        ⟨c.delta_rotation.theta - 2 * Real.pi * (delta_x : ℝ) / (c.width : ℝ),
         c.delta_rotation.phi - 2 * Real.pi * (delta_y : ℝ) / (c.height : ℝ)⟩ }

/-- Embeds `Camera::mouse_wheel`: `speed += signum(delta) * 0.1 * speed;
speed = speed.max(0.01)`. -/
noncomputable def mouse_wheel (c : Camera) (delta : ℤ) : Camera :=
  { c with
      movement_speed :=
        max (c.movement_speed + (delta.sign : ℝ) * 0.1 * c.movement_speed) 0.01 }

/-- Embeds `Camera::pan` (the programmatic pan method; named `pan_by` here because
`Camera.pan` is the field projection). -/
def pan_by (c : Camera) (x y z : ℝ) : Camera :=
  { c with pan := ⟨c.pan.x + x, c.pan.y + y, c.pan.z + z⟩ }

/-- Embeds `Camera::rotate`. -/
def rotate (c : Camera) (up around : ℝ) : Camera :=
  { c with
      rotation_speed :=
        ⟨c.rotation_speed.theta + around, c.rotation_speed.phi + up⟩ }

end Camera

/-- The camera states reachable through the public interface.  The ten input
flags are public fields written by the event layer, so arbitrary writes to
them are a transition; `set_state` is restricted to snapshots whose rotation
is `Rz(theta) * Rx(phi)` of the snapshot's own angles. -/
inductive Reachable : Camera → Prop
  | new (width height : ℤ) : Reachable (Camera.new width height)
  | update {c : Camera} (elapsedNanos : ℤ) :
      Reachable c → Reachable (c.update elapsedNanos).1
  | set_state {c : Camera} (s : State)
      (hs : s.transform.rot = Quat.from_angle_z s.theta * Quat.from_angle_x s.phi) :
      Reachable c → Reachable (c.set_state s)
  | set_size {c : Camera} (width height : ℤ) :
      Reachable c → Reachable (c.set_size width height)
  | mouse_drag_pan {c : Camera} (dx dy : ℤ) :
      Reachable c → Reachable (c.mouse_drag_pan dx dy)
  | mouse_drag_rotate {c : Camera} (dx dy : ℤ) :
      Reachable c → Reachable (c.mouse_drag_rotate dx dy)
  | mouse_wheel {c : Camera} (delta : ℤ) :
      Reachable c → Reachable (c.mouse_wheel delta)
  | pan_by {c : Camera} (x y z : ℝ) :
      Reachable c → Reachable (c.pan_by x y z)
  | rotate {c : Camera} (up around : ℝ) :
      Reachable c → Reachable (c.rotate up around)
  | set_flags {c : Camera} (b1 b2 b3 b4 b5 b6 b7 b8 b9 b10 : Bool) :
      Reachable c →
      Reachable { c with
        moving_backward := b1, moving_forward := b2,
        moving_left := b3, moving_right := b4,
        moving_down := b5, moving_up := b6,
        turning_left := b7, turning_right := b8,
        turning_down := b9, turning_up := b10 }

/-! ## Claims -/

/-- C3: after every call to `update` — whatever the prior state and elapsed
time, and whether or not the staged input was applied — the pan accumulator
is the zero vector and both components of `rotation_speed` and
`delta_rotation` are zero. -/
theorem update_drains_accumulators (c : Camera) (elapsedNanos : ℤ) :
    (c.update elapsedNanos).1.pan = Vec3.zero ∧
    (c.update elapsedNanos).1.rotation_speed.theta = 0 ∧
    (c.update elapsedNanos).1.rotation_speed.phi = 0 ∧
    (c.update elapsedNanos).1.delta_rotation.theta = 0 ∧
    (c.update elapsedNanos).1.delta_rotation.phi = 0 :=
  ⟨rfl, rfl, rfl, rfl, rfl⟩

/-- C5: `set_state (state ())` only re-marks the camera as moved, leaving
the transform, theta, phi bit-for-bit and everything else (accumulators,
movement speed, the ten flags, viewport, projection) untouched; and in
general `set_state s` writes exactly the transform, phi, theta and the
moved flag. -/
theorem set_state_writes_only_pose (c : Camera) :
    c.set_state c.state = { c with moved := true } ∧
    ∀ s : State,
      c.set_state s =
        { c with transform := s.transform, phi := s.phi, theta := s.theta,
                 moved := true } :=
  ⟨rfl, fun _ => rfl⟩

/-- C6: `mouse_drag_rotate` shifts `delta_rotation` by exactly
`-2 pi * delta / dimension` on each axis (a full-viewport drag is one full
turn, negated), and for a fixed pixel delta the staged effect of both drag
operations is inversely proportional to the viewport dimension: the change
times the dimension is the dimension-free constant of the formula. -/
theorem mouse_drag_resolution_independence (c : Camera) (dx dy : ℤ)
    (hw : (c.width : ℝ) ≠ 0) (hh : (c.height : ℝ) ≠ 0) :
    (c.mouse_drag_rotate dx dy).delta_rotation.theta
        = c.delta_rotation.theta - 2 * Real.pi * (dx : ℝ) / (c.width : ℝ) ∧
    (c.mouse_drag_rotate dx dy).delta_rotation.phi
        = c.delta_rotation.phi - 2 * Real.pi * (dy : ℝ) / (c.height : ℝ) ∧
    (c.mouse_drag_pan dx dy).pan.x
        = c.pan.x - 100 * (dx : ℝ) / (c.width : ℝ) ∧
    (c.mouse_drag_pan dx dy).pan.y
        = c.pan.y + 100 * (dy : ℝ) / (c.height : ℝ) ∧
    ((c.mouse_drag_rotate dx dy).delta_rotation.theta - c.delta_rotation.theta)
        * (c.width : ℝ) = -(2 * Real.pi * (dx : ℝ)) ∧
    ((c.mouse_drag_rotate dx dy).delta_rotation.phi - c.delta_rotation.phi)
        * (c.height : ℝ) = -(2 * Real.pi * (dy : ℝ)) ∧
    ((c.mouse_drag_pan dx dy).pan.x - c.pan.x) * (c.width : ℝ)
        = -(100 * (dx : ℝ)) ∧
    ((c.mouse_drag_pan dx dy).pan.y - c.pan.y) * (c.height : ℝ)
        = 100 * (dy : ℝ) := by
  refine ⟨rfl, rfl, rfl, rfl, ?_, ?_, ?_, ?_⟩ <;>
    simp only [Camera.mouse_drag_rotate, Camera.mouse_drag_pan] <;>
    field_simp <;> ring

/-- Witness for C6 at the freshly constructed 2x2 camera and pixel delta (1, 1). -/
theorem mouse_drag_resolution_independence_witness :
    (((Camera.new 2 2).mouse_drag_rotate 1 1).delta_rotation.theta
        = (Camera.new 2 2).delta_rotation.theta
          - 2 * Real.pi * ((1 : ℤ) : ℝ) / ((Camera.new 2 2).width : ℝ) ∧
     ((Camera.new 2 2).mouse_drag_rotate 1 1).delta_rotation.phi
        = (Camera.new 2 2).delta_rotation.phi
          - 2 * Real.pi * ((1 : ℤ) : ℝ) / ((Camera.new 2 2).height : ℝ) ∧
     ((Camera.new 2 2).mouse_drag_pan 1 1).pan.x
        = (Camera.new 2 2).pan.x - 100 * ((1 : ℤ) : ℝ) / ((Camera.new 2 2).width : ℝ) ∧
     ((Camera.new 2 2).mouse_drag_pan 1 1).pan.y
        = (Camera.new 2 2).pan.y + 100 * ((1 : ℤ) : ℝ) / ((Camera.new 2 2).height : ℝ) ∧
     (((Camera.new 2 2).mouse_drag_rotate 1 1).delta_rotation.theta
        - (Camera.new 2 2).delta_rotation.theta) * ((Camera.new 2 2).width : ℝ)
        = -(2 * Real.pi * ((1 : ℤ) : ℝ)) ∧
     (((Camera.new 2 2).mouse_drag_rotate 1 1).delta_rotation.phi
        - (Camera.new 2 2).delta_rotation.phi) * ((Camera.new 2 2).height : ℝ)
        = -(2 * Real.pi * ((1 : ℤ) : ℝ)) ∧
     (((Camera.new 2 2).mouse_drag_pan 1 1).pan.x - (Camera.new 2 2).pan.x)
        * ((Camera.new 2 2).width : ℝ) = -(100 * ((1 : ℤ) : ℝ)) ∧
     (((Camera.new 2 2).mouse_drag_pan 1 1).pan.y - (Camera.new 2 2).pan.y)
        * ((Camera.new 2 2).height : ℝ) = 100 * ((1 : ℤ) : ℝ)) :=
  mouse_drag_resolution_independence (Camera.new 2 2) 1 1
    (by norm_num [Camera.new, Camera.set_size])
    (by norm_num [Camera.new, Camera.set_size])

/-- C1: when a drag delta is pending, `update` adds exactly the
`delta_rotation` components to theta/phi (rotation speed contributes
nothing); otherwise it adds the rotation speed — after the 0.15 rad
turning-key increments — times the elapsed seconds. -/
theorem update_rotation_precedence (c : Camera) (elapsedNanos : ℤ) :
    ((c.delta_rotation.theta ≠ 0 ∨ c.delta_rotation.phi ≠ 0) →
      (c.update elapsedNanos).1.theta = c.theta + c.delta_rotation.theta ∧
      (c.update elapsedNanos).1.phi = c.phi + c.delta_rotation.phi) ∧
    (c.delta_rotation.theta = 0 → c.delta_rotation.phi = 0 →
      (c.update elapsedNanos).1.theta
        = c.theta + c.keyed_rotation_speed_theta * Camera.elapsed_seconds elapsedNanos ∧
      (c.update elapsedNanos).1.phi
        = c.phi + c.keyed_rotation_speed_phi * Camera.elapsed_seconds elapsedNanos) := by
  constructor
  · intro hdr
    have hA : c.keyed_rotation_speed_theta ≠ 0 ∨ c.keyed_rotation_speed_phi ≠ 0 ∨
        c.delta_rotation.theta ≠ 0 ∨ c.delta_rotation.phi ≠ 0 := Or.inr (Or.inr hdr)
    exact ⟨by simp only [Camera.update, if_pos hA, if_pos hdr],
           by simp only [Camera.update, if_pos hA, if_pos hdr]⟩
  · intro hth hph
    have hB : ¬(c.delta_rotation.theta ≠ 0 ∨ c.delta_rotation.phi ≠ 0) := by
      simp [hth, hph]
    by_cases hA : c.keyed_rotation_speed_theta ≠ 0 ∨ c.keyed_rotation_speed_phi ≠ 0 ∨
        c.delta_rotation.theta ≠ 0 ∨ c.delta_rotation.phi ≠ 0
    · exact ⟨by simp only [Camera.update, if_pos hA, if_neg hB],
             by simp only [Camera.update, if_pos hA, if_neg hB]⟩
    · have h0 := hA
      push_neg at h0
      constructor
      · simp only [Camera.update, if_neg hA]
        rw [h0.1, zero_mul, add_zero]
      · simp only [Camera.update, if_neg hA]
        rw [h0.2.1, zero_mul, add_zero]

/-- A camera with a staged drag rotation, for the C1 witness. -/
noncomputable def dragCam : Camera :=
  { Camera.new 2 2 with delta_rotation := ⟨1, 0⟩ }

/-- Witness for C1: a pending drag delta of 1 rad wins over rotation speed;
with no pending drag the keyed rotation speed times elapsed seconds is used. -/
theorem update_rotation_precedence_witness :
    ((dragCam.update 0).1.theta = dragCam.theta + dragCam.delta_rotation.theta ∧
     (dragCam.update 0).1.phi = dragCam.phi + dragCam.delta_rotation.phi) ∧
    (((Camera.new 2 2).update 1000000000).1.theta
        = (Camera.new 2 2).theta + (Camera.new 2 2).keyed_rotation_speed_theta
            * Camera.elapsed_seconds 1000000000 ∧
     ((Camera.new 2 2).update 1000000000).1.phi
        = (Camera.new 2 2).phi + (Camera.new 2 2).keyed_rotation_speed_phi
            * Camera.elapsed_seconds 1000000000) :=
  ⟨(update_rotation_precedence dragCam 0).1 (Or.inl one_ne_zero),
   (update_rotation_precedence (Camera.new 2 2) 1000000000).2 rfl rfl⟩

/-- All ten boolean input flags are off. -/
def Camera.flags_off (c : Camera) : Prop :=
  c.moving_backward = false ∧ c.moving_forward = false ∧
  c.moving_left = false ∧ c.moving_right = false ∧
  c.moving_down = false ∧ c.moving_up = false ∧
  c.turning_left = false ∧ c.turning_right = false ∧
  c.turning_down = false ∧ c.turning_up = false

/-- No input flags, no staged accumulator input, dirty bit clear. -/
def Camera.quiescent (c : Camera) : Prop :=
  c.flags_off ∧ c.pan = Vec3.zero ∧
  c.rotation_speed.theta = 0 ∧ c.rotation_speed.phi = 0 ∧
  c.delta_rotation.theta = 0 ∧ c.delta_rotation.phi = 0 ∧ c.moved = false

theorem flags_off_new (width height : ℤ) : (Camera.new width height).flags_off :=
  ⟨rfl, rfl, rfl, rfl, rfl, rfl, rfl, rfl, rfl, rfl⟩

/-- Embeds `update` drains all accumulators and clears the dirty bit, so the
resulting camera is quiescent whenever the flags were off. -/
theorem quiescent_after_update (c : Camera) (elapsedNanos : ℤ)
    (h : c.flags_off) : (c.update elapsedNanos).1.quiescent :=
  ⟨h, rfl, rfl, rfl, rfl, rfl, rfl⟩

/-- From a quiescent camera, `update` with zero elapsed time reports no
motion. -/
theorem quiescent_update_false (c : Camera) (h : c.quiescent) :
    (c.update 0).2 = false := by
  obtain ⟨⟨f1, f2, f3, f4, f5, f6, f7, f8, f9, f10⟩,
    hpan, hrst, hrsp, hdrt, hdrp, hmoved⟩ := h
  simp [Camera.update, Camera.keyed_rotation_speed_theta,
    Camera.keyed_rotation_speed_phi, f1, f2, f3, f4, f5, f6, f7, f8, f9, f10,
    hpan, hrst, hrsp, hdrt, hdrp, hmoved, Vec3.magnitude2, Vec3.zero]

/-- Repeated zero-elapsed `update` calls starting from a camera. -/
noncomputable def updateChain (c : Camera) : ℕ → Camera
  | 0 => c
  | n + 1 => ((updateChain c n).update 0).1

theorem updateChain_quiescent (c : Camera) (h : c.quiescent) :
    ∀ n, (updateChain c n).quiescent := by
  intro n
  induction n with
  | zero => exact h
  | succ n ih => exact quiescent_after_update _ 0 ih.1

/-- C4: on a freshly constructed camera the first `update` returns true —
whatever the elapsed time, including zero — and with no input every
subsequent zero-elapsed `update` returns false. -/
theorem first_update_true_then_false (width height elapsedNanos : ℤ) :
    ((Camera.new width height).update elapsedNanos).2 = true ∧
    ∀ n : ℕ,
      ((updateChain ((Camera.new width height).update 0).1 n).update 0).2
        = false := by
  constructor
  · simp [Camera.update, Camera.new, Camera.set_size]
  · intro n
    exact quiescent_update_false _
      (updateChain_quiescent _
        (quiescent_after_update _ 0 (flags_off_new width height)) n)

theorem tdiv_eq_zero_of_small {a : ℤ} (h0 : 0 ≤ a) (h1 : a < 1000000) :
    a.tdiv 1000000 = 0 := by
  obtain ⟨n, rfl⟩ := Int.eq_ofNat_of_zero_le h0
  have hn : n < 1000000 := by exact_mod_cast h1
  rw [show (1000000 : ℤ) = ((1000000 : ℕ) : ℤ) by norm_num, ← Int.ofNat_tdiv]
  simp [Nat.div_eq_of_lt hn]

theorem Vec3.magnitude2_pos {v : Vec3} (h : v ≠ Vec3.zero) : 0 < v.magnitude2 := by
  obtain ⟨a, b, c⟩ := v
  have hsum : (0 : ℝ) ≤ a * a + b * b + c * c := by
    nlinarith [mul_self_nonneg a, mul_self_nonneg b, mul_self_nonneg c]
  rcases eq_or_lt_of_le hsum with h0 | h0
  · exfalso
    apply h
    have ha : a = 0 := by
      nlinarith [mul_self_nonneg a, mul_self_nonneg b, mul_self_nonneg c]
    have hb : b = 0 := by
      nlinarith [mul_self_nonneg a, mul_self_nonneg b, mul_self_nonneg c]
    have hc : c = 0 := by
      nlinarith [mul_self_nonneg a, mul_self_nonneg b, mul_self_nonneg c]
    simp [Vec3.zero, ha, hb, hc]
  · exact h0

theorem displacement_fixed_of_zero_seconds (d : Vec3) (q : Quat) (v : Vec3) :
    d + q.rotate_vector (v.smul 0) = d := by
  obtain ⟨dx, dy, dz⟩ := d
  simp [Quat.rotate_vector, Vec3.smul, Vec3.cross, Vec3.add_def]

/-- C10: `update` turns the elapsed duration into whole milliseconds over
1000, so any positive duration under one millisecond yields an
elapsed-seconds factor of exactly 0; staged pan or rotation speed then
changes nothing — displacement, theta and phi stay put — yet `update`
still returns true because the accumulators were nonzero. -/
theorem update_submillisecond_truncation (c : Camera) (elapsedNanos : ℤ)
    (h0 : 0 < elapsedNanos) (h1 : elapsedNanos < 1000000)
    (hflags : c.flags_off)
    (hdrt : c.delta_rotation.theta = 0) (hdrp : c.delta_rotation.phi = 0)
    (hnz : c.pan ≠ Vec3.zero ∨ c.rotation_speed.theta ≠ 0 ∨
      c.rotation_speed.phi ≠ 0) :
    Camera.elapsed_seconds elapsedNanos = 0 ∧
    (c.update elapsedNanos).1.transform.disp = c.transform.disp ∧
    (c.update elapsedNanos).1.theta = c.theta ∧
    (c.update elapsedNanos).1.phi = c.phi ∧
    (c.update elapsedNanos).2 = true := by
  obtain ⟨f1, f2, f3, f4, f5, f6, f7, f8, f9, f10⟩ := hflags
  have hes : Camera.elapsed_seconds elapsedNanos = 0 := by
    simp [Camera.elapsed_seconds, Duration.num_milliseconds,
      tdiv_eq_zero_of_small h0.le h1]
  have hkey : ¬ (0 : ℝ) < Vec3.magnitude2 ⟨(0:ℝ) + 0, (0:ℝ) + 0, (0:ℝ) + 0⟩ := by
    simp [Vec3.magnitude2]
  have hkey0 : ¬ (0 : ℝ) < Vec3.magnitude2 ⟨(0:ℝ), (0:ℝ), (0:ℝ)⟩ := by
    simp [Vec3.magnitude2]
  refine ⟨hes, ?_, ?_, ?_, ?_⟩
  · simp only [Camera.update, hes, mul_zero, f1, f2, f3, f4, f5, f6, f7, f8, f9,
      f10, Bool.false_eq_true, if_false, if_neg hkey]
    split_ifs
    · exact displacement_fixed_of_zero_seconds _ _ _
    · rfl
  · simp only [Camera.update, hes, mul_zero, add_zero, hdrt, hdrp, f1, f2, f3,
      f4, f5, f6, f7, f8, f9, f10, Bool.false_eq_true, if_false]
    split_ifs <;> simp
  · simp only [Camera.update, hes, mul_zero, add_zero, hdrt, hdrp, f1, f2, f3,
      f4, f5, f6, f7, f8, f9, f10, Bool.false_eq_true, if_false]
    split_ifs <;> simp
  · simp only [Camera.update, Camera.keyed_rotation_speed_theta,
      Camera.keyed_rotation_speed_phi, f1, f2, f3, f4, f5, f6, f7, f8, f9, f10,
      Bool.false_eq_true, if_false, add_zero, sub_zero, if_neg hkey,
      if_neg hkey0]
    rw [if_pos]
    rcases hnz with hp | ht | hp2
    · exact Or.inl (Vec3.magnitude2_pos hp)
    · exact Or.inr (Or.inl ht)
    · exact Or.inr (Or.inr (Or.inl hp2))

/-- A fresh camera with a staged pan accumulator, for the C10 witness. -/
noncomputable def stagedPanCam : Camera :=
  { Camera.new 1 1 with pan := ⟨1, 0, 0⟩ }

/-- Witness for C10 at a 0.5 ms duration and a staged pan of (1,0,0). -/
theorem update_submillisecond_truncation_witness :
    Camera.elapsed_seconds 500000 = 0 ∧
    (stagedPanCam.update 500000).1.transform.disp
      = stagedPanCam.transform.disp ∧
    (stagedPanCam.update 500000).1.theta = stagedPanCam.theta ∧
    (stagedPanCam.update 500000).1.phi = stagedPanCam.phi ∧
    (stagedPanCam.update 500000).2 = true :=
  update_submillisecond_truncation stagedPanCam 500000 (by norm_num)
    (by norm_num) ⟨rfl, rfl, rfl, rfl, rfl, rfl, rfl, rfl, rfl, rfl⟩ rfl rfl
    (Or.inl (by simp [stagedPanCam, Vec3.zero, Camera.new, Camera.set_size]))

/-- The camera after `n` scroll-down (`delta = -1`) wheel events on a
freshly constructed camera (initial `movement_speed = 10`). -/
noncomputable def wheelDownIter : ℕ → Camera
  | 0 => Camera.new 1 1
  | n + 1 => (wheelDownIter n).mouse_wheel (-1)

theorem mouse_wheel_down_eq (c : Camera) :
    (c.mouse_wheel (-1)).movement_speed = max (0.9 * c.movement_speed) 0.01 := by
  have hs0 : (-1 : ℤ).sign = -1 := by decide
  have hs : (((-1 : ℤ).sign : ℤ) : ℝ) = -1 := by rw [hs0]; norm_num
  have h : c.movement_speed + (((-1 : ℤ).sign : ℤ) : ℝ) * 0.1 * c.movement_speed
      = 0.9 * c.movement_speed := by
    rw [hs]; ring
  simp only [Camera.mouse_wheel]
  rw [h]

theorem wheelDownIter_speed (n : ℕ) (hn : n ≤ 65) :
    (wheelDownIter n).movement_speed = 10 * 0.9 ^ n := by
  induction n with
  | zero => simp [wheelDownIter, Camera.new, Camera.set_size]
  | succ n ih =>
    have hn64 : n ≤ 64 := by omega
    have h09 : ((0.9 : ℝ)) ^ 64 ≤ 0.9 ^ n :=
      pow_le_pow_of_le_one (by norm_num) (by norm_num) hn64
    have hv : (0.01 : ℝ) ≤ 9 * (0.9 : ℝ) ^ 64 := by norm_num
    have hfloor : (0.01 : ℝ) ≤ 0.9 * (10 * 0.9 ^ n) := by linarith
    rw [wheelDownIter, mouse_wheel_down_eq, ih (by omega), max_eq_left hfloor]
    ring

/-- C7 counterexample: from the initial speed 10, 66 scroll-down events
drive `movement_speed` to exactly the floor 0.01 — not strictly above it —
and the 67th event leaves it at 0.01 instead of multiplying by 0.9. -/
theorem movement_speed_hits_floor :
    (wheelDownIter 66).movement_speed = 0.01 ∧
    (wheelDownIter 67).movement_speed = 0.01 := by
  have h65 : (wheelDownIter 65).movement_speed = 10 * 0.9 ^ 65 :=
    wheelDownIter_speed 65 (le_refl 65)
  have h66 : (wheelDownIter 66).movement_speed = 0.01 := by
    rw [wheelDownIter, mouse_wheel_down_eq, h65, max_eq_right (by norm_num)]
  refine ⟨h66, ?_⟩
  rw [wheelDownIter, mouse_wheel_down_eq, h66, max_eq_right (by norm_num)]

/-- C7 amended: `mouse_wheel` multiplies the speed by 1.1 for positive
delta (the clamp never bites there when the speed is at least the floor),
sets it to `max (0.9 * speed) 0.01` for negative delta, and never lets it
drop below 0.01 — it can hit the floor exactly. -/
theorem mouse_wheel_speed_behavior (c : Camera) (delta : ℤ)
    (h : 0.01 ≤ c.movement_speed) :
    (0 < delta → (c.mouse_wheel delta).movement_speed
        = 1.1 * c.movement_speed) ∧
    (delta < 0 → (c.mouse_wheel delta).movement_speed
        = max (0.9 * c.movement_speed) 0.01) ∧
    0.01 ≤ (c.mouse_wheel delta).movement_speed := by
  refine ⟨?_, ?_, le_max_right _ _⟩
  · intro hd
    have hs : ((delta.sign : ℤ) : ℝ) = 1 := by
      rw [Int.sign_eq_one_iff_pos.mpr hd]; norm_num
    simp only [Camera.mouse_wheel, hs]
    rw [max_eq_left (by nlinarith)]
    ring
  · intro hd
    have hs : ((delta.sign : ℤ) : ℝ) = -1 := by
      rw [Int.sign_eq_neg_one_iff_neg.mpr hd]; norm_num
    simp only [Camera.mouse_wheel, hs]
    congr 1
    ring

/-- Witness for the amended C7 at a fresh camera (speed 10) and delta 1. -/
theorem mouse_wheel_speed_behavior_witness :
    ((0 : ℤ) < 1 → ((Camera.new 1 1).mouse_wheel 1).movement_speed
        = 1.1 * (Camera.new 1 1).movement_speed) ∧
    ((1 : ℤ) < 0 → ((Camera.new 1 1).mouse_wheel 1).movement_speed
        = max (0.9 * (Camera.new 1 1).movement_speed) 0.01) ∧
    0.01 ≤ ((Camera.new 1 1).mouse_wheel 1).movement_speed :=
  mouse_wheel_speed_behavior (Camera.new 1 1) 1
    (by norm_num [Camera.new, Camera.set_size])

/-- C2: in every state reachable through the public operations (with
`set_state` restricted to pose snapshots whose rotation matches their own
angles), the transform's rotation quaternion is exactly
`from_angle_z theta * from_angle_x phi` — yaw first, pitch second; every
operation that changes theta or phi rebuilds it from them, and no
operation mutates it independently. -/
theorem reachable_rot_invariant (c : Camera) (h : Reachable c) :
    c.transform.rot = Quat.from_angle_z c.theta * Quat.from_angle_x c.phi := by
  induction h with
  | new width height =>
    simp [Camera.new, Camera.set_size, Quat.from_angle_z, Quat.from_angle_x,
      Quat.one, Quat.mul_def, Quat.mul]
  | update elapsedNanos hr ih =>
    rename_i c0
    by_cases hA : c0.keyed_rotation_speed_theta ≠ 0 ∨
        c0.keyed_rotation_speed_phi ≠ 0 ∨
        c0.delta_rotation.theta ≠ 0 ∨ c0.delta_rotation.phi ≠ 0
    · simp only [Camera.update, if_pos hA]
    · simp only [Camera.update, if_neg hA]
      exact ih
  | set_state s hs hr ih => simpa [Camera.set_state] using hs
  | set_size width height hr ih => simpa [Camera.set_size] using ih
  | mouse_drag_pan dx dy hr ih => simpa [Camera.mouse_drag_pan] using ih
  | mouse_drag_rotate dx dy hr ih => simpa [Camera.mouse_drag_rotate] using ih
  | mouse_wheel delta hr ih => simpa [Camera.mouse_wheel] using ih
  | pan_by x y z hr ih => simpa [Camera.pan_by] using ih
  | rotate up around hr ih => simpa [Camera.rotate] using ih
  | set_flags b1 b2 b3 b4 b5 b6 b7 b8 b9 b10 hr ih => simpa using ih

/-- Witness for C2 at the freshly constructed camera, reachable by the
`new` transition. -/
theorem reachable_rot_invariant_witness :
    (Camera.new 1 1).transform.rot
      = Quat.from_angle_z (Camera.new 1 1).theta
          * Quat.from_angle_x (Camera.new 1 1).phi :=
  reachable_rot_invariant (Camera.new 1 1) (Reachable.new 1 1)

/-- The cotangent of the half field of view (22.5deg) is positive. -/
theorem cot_half_fovy_pos :
    0 < Real.cos (Real.pi / 4 / 2) / Real.sin (Real.pi / 4 / 2) := by
  have hpi := Real.pi_pos
  have hcos : 0 < Real.cos (Real.pi / 4 / 2) :=
    Real.cos_pos_of_mem_Ioo ⟨by linarith, by linarith⟩
  have hsin : 0 < Real.sin (Real.pi / 4 / 2) :=
    Real.sin_pos_of_pos_of_lt_pi (by linarith) (by linarith)
  exact div_pos hcos hsin

/-- C9 amended: `set_size` performs no validation at all — it stores the
given width and height verbatim and computes the projection directly from
`aspect = width / height`; for a negative height (and positive width) it
silently produces a projection with a negative `(0,0)` entry instead of
clamping the height to 1 or signalling an error. -/
theorem set_size_no_validation (c : Camera) (width height : ℤ) :
    (c.set_size width height).width = width ∧
    (c.set_size width height).height = height ∧
    (c.set_size width height).projection_matrix
      = perspectiveFovMatrix (Real.pi / 4) ((width : ℝ) / (height : ℝ))
          0.1 10000 ∧
    (c.set_size width height).moved = true ∧
    (height < 0 → 0 < width →
      (c.set_size width height).projection_matrix 0 0 < 0) := by
  refine ⟨rfl, rfl, rfl, rfl, ?_⟩
  intro hh hw
  have haspect : ((width : ℝ) / (height : ℝ)) < 0 := by
    apply div_neg_of_pos_of_neg
    · exact_mod_cast hw
    · exact_mod_cast hh
  simp only [Camera.set_size, perspectiveFovMatrix, Matrix.of_apply,
    Matrix.cons_val_zero]
  exact div_neg_of_pos_of_neg cot_half_fovy_pos haspect

/-- C9 counterexample: `set_size` called with height -2 on a fresh camera
keeps the height at -2 (no clamping to 1) and returns an ordinary camera
whose projection was silently computed from the negative aspect ratio
(negative `(0,0)` entry) — there is no error path in the component. -/
theorem set_size_degenerate_counterexample :
    ((Camera.new 100 100).set_size 100 (-2)).height = -2 ∧
    ((Camera.new 100 100).set_size 100 (-2)).projection_matrix 0 0 < 0 := by
  refine ⟨rfl, ?_⟩
  have haspect : (((100 : ℤ) : ℝ) / ((-2 : ℤ) : ℝ)) < 0 := by norm_num
  simp only [Camera.set_size, perspectiveFovMatrix, Matrix.of_apply,
    Matrix.cons_val_zero]
  exact div_neg_of_pos_of_neg cot_half_fovy_pos haspect

/-- Witness for the amended C9 at a fresh camera resized to 100 x -2. -/
theorem set_size_no_validation_witness :
    (((Camera.new 100 100).set_size 100 (-2)).width = 100 ∧
     ((Camera.new 100 100).set_size 100 (-2)).height = -2 ∧
     ((Camera.new 100 100).set_size 100 (-2)).projection_matrix
       = perspectiveFovMatrix (Real.pi / 4) (((100 : ℤ) : ℝ) / ((-2 : ℤ) : ℝ))
           0.1 10000 ∧
     ((Camera.new 100 100).set_size 100 (-2)).moved = true ∧
     ((-2 : ℤ) < 0 → (0 : ℤ) < 100 →
       ((Camera.new 100 100).set_size 100 (-2)).projection_matrix 0 0 < 0)) :=
  set_size_no_validation (Camera.new 100 100) 100 (-2)

theorem Quat.invert_of_unit {q : Quat} (h : q.magnitude2 = 1) :
    q.invert = q.conjugate := by
  simp [Quat.invert, Quat.conjugate, h]

set_option maxHeartbeats 1000000 in
theorem toMatrix4_conj_mul (q : Quat) (d : Vec3) (h : q.magnitude2 = 1) :
    (Decomposed.toMatrix4
        ⟨1, q.conjugate, q.conjugate.rotate_vector (d.smul (-1))⟩) *
      Decomposed.toMatrix4 ⟨1, q, d⟩ = 1 := by
  obtain ⟨s, x, y, z⟩ := q
  obtain ⟨dx, dy, dz⟩ := d
  have h2 : s * s + x * x + y * y + z * z = 1 := by
    simpa [Quat.magnitude2] using h
  ext i j
  fin_cases i <;> fin_cases j <;>
    simp [Decomposed.toMatrix4, Quat.conjugate, Quat.rotate_vector, Vec3.cross,
      Vec3.smul, Vec3.add_def, Matrix.mul_apply, Fin.sum_univ_four,
      Matrix.one_apply]
  · linear_combination (4 * (y * y + z * z)) * h2
  · linear_combination (-4 * x * y) * h2
  · linear_combination (-4 * x * z) * h2
  · ring
  · linear_combination (-4 * x * y) * h2
  · linear_combination (4 * (x * x + z * z)) * h2
  · linear_combination (-4 * y * z) * h2
  · ring
  · linear_combination (-4 * x * z) * h2
  · linear_combination (-4 * y * z) * h2
  · linear_combination (4 * (x * x + y * y)) * h2
  · ring

/-- A fresh camera sent by `set_state` to a pose with scale 1 and the
non-unit quaternion (0, 1/2, 1/2, 0), whose rotation matrix has a zero
row: the transform matrix is singular although the scale is nonzero. -/
noncomputable def singularPoseCam : Camera :=
  (Camera.new 100 100).set_state
    { transform :=
        { scale := 1, rot := ⟨0, 1 / 2, 1 / 2, 0⟩, disp := Vec3.zero },
      phi := 0, theta := 0 }

/-- C8 counterexample: on `singularPoseCam` the transform matrix is not
invertible, yet `get_world_to_gl` does not signal the failure — the error
is raised exactly on zero scale, not exactly on non-invertibility. -/
theorem get_world_to_gl_counterexample :
    singularPoseCam.get_world_to_gl ≠ none ∧
    ¬ ∃ B : Matrix4,
        Decomposed.toMatrix4 singularPoseCam.transform * B = 1 ∧
        B * Decomposed.toMatrix4 singularPoseCam.transform = 1 := by
  constructor
  · simp [singularPoseCam, Camera.set_state, Camera.get_world_to_gl,
      Decomposed.inverse_transform]
  · rintro ⟨B, hB1, hB2⟩
    have h22 := congrArg (fun M : Matrix4 => M 2 2) hB1
    simp [singularPoseCam, Camera.set_state, Decomposed.toMatrix4,
      Matrix.mul_apply, Fin.sum_univ_four, Matrix.one_apply, Vec3.zero] at h22
    norm_num at h22

/-- C8 amended: `get_world_to_gl` signals its failure exactly when the
transform's scale is zero; zero scale implies the transform matrix is not
invertible, and under the intended invariant (scale 1, unit quaternion)
the error branch is unreachable and the result is the projection matrix
times a two-sided inverse of the transform matrix. -/
theorem get_world_to_gl_spec (c : Camera) :
    (c.get_world_to_gl = none ↔ c.transform.scale = 0) ∧
    (c.transform.scale = 0 →
      ¬ ∃ B : Matrix4, Decomposed.toMatrix4 c.transform * B = 1 ∧
          B * Decomposed.toMatrix4 c.transform = 1) ∧
    (c.transform.scale = 1 → c.transform.rot.magnitude2 = 1 →
      ∃ M : Matrix4, c.get_world_to_gl = some (c.projection_matrix * M) ∧
        M * Decomposed.toMatrix4 c.transform = 1 ∧
        Decomposed.toMatrix4 c.transform * M = 1) := by
  refine ⟨?_, ?_, ?_⟩
  · by_cases h : c.transform.scale = 0 <;>
      simp [Camera.get_world_to_gl, Decomposed.inverse_transform, h]
  · intro h0
    rintro ⟨B, hB1, hB2⟩
    have h00 := congrArg (fun M : Matrix4 => M 0 0) hB2
    simp [Decomposed.toMatrix4, Matrix.mul_apply, Fin.sum_univ_four,
      Matrix.one_apply, h0] at h00
  · intro h1 hq
    have hT : c.transform
        = ⟨(1 : ℝ), c.transform.rot, c.transform.disp⟩ := by
      rw [← h1]
    have hM1 : Decomposed.toMatrix4
        ⟨1, c.transform.rot.conjugate,
          c.transform.rot.conjugate.rotate_vector (c.transform.disp.smul (-1))⟩
        * Decomposed.toMatrix4 c.transform = 1 := by
      rw [hT]
      exact toMatrix4_conj_mul _ _ hq
    refine ⟨Decomposed.toMatrix4
      ⟨1, c.transform.rot.conjugate,
        c.transform.rot.conjugate.rotate_vector (c.transform.disp.smul (-1))⟩,
      ?_, hM1, Matrix.mul_eq_one_comm.mpr hM1⟩
    simp [Camera.get_world_to_gl, Decomposed.inverse_transform, h1,
      Quat.invert_of_unit hq]

/-- Witness for the amended C8 at the freshly constructed camera. -/
theorem get_world_to_gl_spec_witness :
    ((Camera.new 1 1).get_world_to_gl = none
        ↔ (Camera.new 1 1).transform.scale = 0) ∧
    ((Camera.new 1 1).transform.scale = 0 →
      ¬ ∃ B : Matrix4,
          Decomposed.toMatrix4 (Camera.new 1 1).transform * B = 1 ∧
          B * Decomposed.toMatrix4 (Camera.new 1 1).transform = 1) ∧
    ((Camera.new 1 1).transform.scale = 1 →
      (Camera.new 1 1).transform.rot.magnitude2 = 1 →
      ∃ M : Matrix4,
        (Camera.new 1 1).get_world_to_gl
          = some ((Camera.new 1 1).projection_matrix * M) ∧
        M * Decomposed.toMatrix4 (Camera.new 1 1).transform = 1 ∧
        Decomposed.toMatrix4 (Camera.new 1 1).transform * M = 1) :=
  get_world_to_gl_spec (Camera.new 1 1)
